import Mathlib

/-!
# Shallow embedding of the GitHub search-and-enrichment crawler

This file embeds the search pipeline of the crawler repository
(`crawler/crawler.py` and `crawler/parsers.py`) in Lean 4 and proves
properties about it.

Modelling conventions:
* HTML markup is modelled as a tree of `Node`s; the BeautifulSoup
  selection primitives used by the source (`select('div.search-title > a')`,
  `find('h2', string='Languages')`, `find_parent('div')`,
  `select('span.Progress > span')`) are implemented over that tree.
* The HTTP transport (`requests.get`) is an external collaborator and is
  passed in as a function `Transport` from requests to responses; a
  response body is already-parsed markup (`List Node`).
* `random.choice` is modelled by threading an arbitrary pick index; on an
  empty pool it fails (Python raises `IndexError`), modelled by
  `Err.emptyProxyPool`.
* Python exceptions are modelled by the `Err` type; fallible steps return
  `Except Err _` or carry an `Option Err` component.
* `ThreadPoolExecutor.map` in `RepositoryParser.search` submits one task
  per parsed result and its result iterator is never consumed, so a task's
  exception is stored in its future and never re-raised; this is modelled
  by running every per-item task and discarding its error component.
-/

/-- Exceptions raised by the crawler code. -/
inductive Err where
  /-- `raise Exception(f"Unknown search_type: {...}")` in `GitHubCrawler.__init__`. -/
  | unknownSearchType (token : String)
  /-- `IndexError` from `random.choice` on an empty proxy list. -/
  | emptyProxyPool
  /-- `raise Exception(f"Failed to fetch ... HTTP Status Code: {...}")`. -/
  | fetchFailed (statusCode : Nat)
  /-- `AttributeError`: calling a method on `None` (e.g. `find` returned `None`). -/
  | attributeError
  /-- `KeyError`: a missing markup attribute subscript (`link['href']`, `span['aria-label']`). -/
  | keyError
  /-- `ValueError`: unpacking `rsplit(' ', 1)` when the label holds no space. -/
  | valueError
  /-- A network-level failure raised by the transport itself. -/
  | transportError (msg : String)
deriving Repr, DecidableEq

mutual
/-- An HTML node: an element with a tag, attributes and children, or text. -/
inductive Node where
  | elem (tag : String) (attrs : List (String × String)) (children : NodeList)
  | text (s : String)

/-- A sibling sequence of HTML nodes. -/
inductive NodeList where
  | nil
  | cons (n : Node) (ns : NodeList)
end

/-- Build a `NodeList` from a plain list of nodes. -/
def NodeList.ofList : List Node → NodeList
  | [] => .nil
  | n :: ns => .cons n (NodeList.ofList ns)

/-- Markup, as parsed by the markup capability (`BeautifulSoup(html)`). -/
abbrev Html := NodeList

/-- Attribute lookup on an attribute list. -/
def getAttr (attrs : List (String × String)) (k : String) : Option String :=
  (attrs.find? (fun p => p.1 == k)).map (·.2)

/-- Split a character list at single spaces (the semantics of Python
`split(' ')`, used for multi-valued `class` attributes). -/
def splitSpaces : List Char → List (List Char)
  | [] => [[]]
  | c :: cs =>
    let r := splitSpaces cs
    if c == ' ' then [] :: r
    else
      match r with
      | [] => [[c]]
      | h :: t => (c :: h) :: t

/-- Does a `class` attribute (space-separated) contain class `c`? -/
def hasClass (attrs : List (String × String)) (c : String) : Bool :=
  match getAttr attrs "class" with
  | some v => (splitSpaces v.toList).contains c.toList
  | none => false

/-- The `href` attribute of a node, when it is an element carrying one. -/
def hrefOf (n : Node) : Option String :=
  match n with
  | .elem _ attrs _ => getAttr attrs "href"
  | .text _ => none

/-- The `aria-label` attribute of a node. -/
def ariaLabel (n : Node) : Option String :=
  match n with
  | .elem _ attrs _ => getAttr attrs "aria-label"
  | .text _ => none

/-- Does `s` start with `pre`? (`str.startswith`.) -/
def strStartsWith (s pre : String) : Bool :=
  pre.toList.isPrefixOf s.toList

/-- Model of `urllib.parse.urljoin` for the base URLs the crawler uses
(`http://github.com` / `https://github.com`, which carry no path):
an absolute reference wins, an absolute path is appended to the base,
and a relative reference is appended after a slash. -/
def urljoin (base ref : String) : String :=
  if ref == "" then base
  else if strStartsWith ref "http://" || strStartsWith ref "https://" then ref
  else if strStartsWith ref "/" then base ++ ref
  else base ++ "/" ++ ref

/-- Python `s.strip('/')`: drop leading and trailing `'/'` characters. -/
def stripSlashes (s : String) : String :=
  String.mk (((s.toList.dropWhile (· == '/')).reverse.dropWhile (· == '/')).reverse)

/-- `s.split('/')[0]`: the prefix of `s` up to its first `'/'`. Python
`split` on a separator always returns at least one element, and that
first element is exactly this prefix, so the subscript never fails. -/
def firstSegment (s : String) : String :=
  String.mk (s.toList.takeWhile (fun c => c != '/'))

/-- Python `rsplit(' ', 1)` on a character list: split at the last space,
`none` when there is no space (so unpacking two variables would fail). -/
def rsplitSp : List Char → Option (List Char × List Char)
  | [] => none
  | c :: cs =>
    match rsplitSp cs with
    | some (a, b) => some (c :: a, b)
    | none => if c == ' ' then some ([], cs) else none

/-- Python `s.rsplit(' ', 1)` producing the two strings, `none` when the
string holds no space. -/
def rsplitSpaceLast (s : String) : Option (String × String) :=
  (rsplitSp s.toList).map (fun p => (String.mk p.1, String.mk p.2))

/-- Python dict insertion `d[k] = v` on an insertion-ordered
association list: update in place when the key exists, append otherwise. -/
def dictInsert (m : List (String × String)) (k v : String) : List (String × String) :=
  if m.any (fun p => p.1 == k) then
    m.map (fun p => if p.1 == k then (k, v) else p)
  else m ++ [(k, v)]

/-- The browser-mimicking headers of `_get_user_agent_headers` (identical in
`crawler.py` and `parsers.py`). -/
def userAgentHeaders : List (String × String) :=
  [("User-Agent", "Mozilla/5.0 (Macintosh; Intel Mac OS X 10_15_7) AppleWebKit/537.36 (KHTML, like Gecko) Chrome/127.0.0.0 Safari/537.36"),
   ("Accept", "text/html,application/xhtml+xml,application/xml;q=0.9,image/avif,image/webp,image/apng,*/*;q=0.8,application/signed-exchange;v=b3;q=0.7"),
   ("Content-Type", "text/html; charset=utf-8")]

/-- `_get_query_params`: `q` is the keywords joined with `+`, `type` the
category token. -/
def queryParams (keywords : List String) (searchType : String) : List (String × String) :=
  [("q", String.intercalate "+" keywords), ("type", searchType)]

/-- One outbound HTTP request as issued through `requests.get`. -/
structure HttpRequest where
  url : String
  proxy : List (String × String)
  headers : List (String × String)
  params : List (String × String)
deriving Repr

/-- An HTTP response: status code and the (already parsed) body. -/
structure HttpResponse where
  status_code : Nat
  text : Html

/-- The transport capability: `requests.get`, which may fail at network level. -/
abbrev Transport := HttpRequest → Except Err HttpResponse

/-- `_get_random_proxy` over an explicit pick index: `random.choice`
raises `IndexError` on an empty pool, otherwise the proxy dict
`{key: <chosen address>}` (`key` is `'http'` in `crawler.py`, `'https'`
in `parsers.py`). -/
def chooseProxy (key : String) (proxies : List String) (pick : Nat) :
    Except Err (List (String × String)) :=
  match proxies with
  | [] => .error .emptyProxyPool
  | p :: ps => .ok [(key, (p :: ps).getD (pick % (p :: ps).length) p)]

/-! ## Markup selection primitives -/

mutual
/-- One step of `soup.select('div.search-title > a')`: an element matches
when its tag is `a` and its parent is a `div` with class `search-title`;
matches are collected in document order (an element precedes its
descendants). -/
def selectTitleAnchors1 (parentIsTitleDiv : Bool) : Node → List Node
  | .text _ => []
  | .elem tag attrs children =>
    (if parentIsTitleDiv && tag == "a" then [Node.elem tag attrs children] else [])
      ++ selectTitleAnchorsL (tag == "div" && hasClass attrs "search-title") children

/-- `selectTitleAnchors1` over a sibling list, left to right. -/
def selectTitleAnchorsL (parentIsTitleDiv : Bool) : NodeList → List Node
  | .nil => []
  | .cons n ns => selectTitleAnchors1 parentIsTitleDiv n ++ selectTitleAnchorsL parentIsTitleDiv ns
end

/-- `soup.select('div.search-title > a')` on a whole document. -/
def selectTitleAnchors (html : Html) : List Node :=
  selectTitleAnchorsL false html

/-- Does a node match `find('h2', string='Languages')`: an `h2` element
whose sole content is the text `Languages`? -/
def isLanguagesH2 (tag : String) (children : NodeList) : Bool :=
  tag == "h2" &&
    match children with
    | .cons (.text s) .nil => s == "Languages"
    | _ => false

mutual
/-- `soup.find('h2', string='Languages')` combined with
`h2.find_parent('div')`: find the first matching `h2` in document order,
returning `some ctx` where `ctx` is its nearest enclosing `div`
(or `none` when the `h2` has no `div` ancestor). -/
def findLanguagesH2 (divCtx : Option Node) : Node → Option (Option Node)
  | .text _ => none
  | .elem tag attrs children =>
    if isLanguagesH2 tag children then some divCtx
    else
      findLanguagesH2L (if tag == "div" then some (Node.elem tag attrs children) else divCtx)
        children

/-- `findLanguagesH2` over a sibling list, first match wins. -/
def findLanguagesH2L (divCtx : Option Node) : NodeList → Option (Option Node)
  | .nil => none
  | .cons n ns =>
    match findLanguagesH2 divCtx n with
    | some r => some r
    | none => findLanguagesH2L divCtx ns
end

mutual
/-- One step of `div.select('span.Progress > span')`: an element matches
when its tag is `span` and its parent is a `span` with class `Progress`. -/
def progressSpans1 (parentIsProgress : Bool) : Node → List Node
  | .text _ => []
  | .elem tag attrs children =>
    (if parentIsProgress && tag == "span" then [Node.elem tag attrs children] else [])
      ++ progressSpansL (tag == "span" && hasClass attrs "Progress") children

/-- `progressSpans1` over a sibling list, left to right. -/
def progressSpansL (parentIsProgress : Bool) : NodeList → List Node
  | .nil => []
  | .cons n ns => progressSpans1 parentIsProgress n ++ progressSpansL parentIsProgress ns
end

/-- `tag.select('span.Progress > span')` on a context element: matches are
sought among its descendants. -/
def selectProgressSpans : Node → List Node
  | .text _ => []
  | .elem tag attrs children =>
    progressSpansL (tag == "span" && hasClass attrs "Progress") children

/-! ## Result records and result parsing -/

/-- A wikis/issues (or `GitHubCrawler`) search result: `{'url': ...}`. -/
structure SimpleResult where
  url : String
deriving Repr, DecidableEq

/-- A repository search result:
`{'url': ..., 'extra': {'owner': ..., 'language_stats': {...}}}`. -/
structure RepoItem where
  url : String
  owner : String
  language_stats : List (String × String)
deriving Repr, DecidableEq

/-- `base_url` of `GitHubCrawler` in `crawler.py`. -/
def crawlerBase : String := "http://github.com"

/-- `base_url` of `BaseParser` in `parsers.py`. -/
def parserBase : String := "https://github.com"

/-- The list comprehension of `GitHubCrawler.parse_results` and
`WikisIssuesBaseParser._parse_results` over the selected anchors:
`{'url': urljoin(base_url, link['href'])}` per anchor, failing with
`KeyError` at the first anchor lacking an `href`. -/
def parseSimpleLinks (base : String) : List Node → Except Err (List SimpleResult)
  | [] => .ok []
  | a :: rest =>
    match hrefOf a with
    | none => .error .keyError
    | some h =>
      match parseSimpleLinks base rest with
      | .error e => .error e
      | .ok rs => .ok ({ url := urljoin base h } :: rs)

/-- `parse_results` / `_parse_results` for the simple categories:
select `div.search-title > a` and map each anchor to its record. -/
def parseResultsSimple (base : String) (html : Html) : Except Err (List SimpleResult) :=
  parseSimpleLinks base (selectTitleAnchors html)

/-- The list comprehension of `RepositoryParser._parse_results`:
`url` joined against the base, `owner` the first path segment of the
stripped href, `language_stats` initially empty. -/
def parseRepoLinks : List Node → Except Err (List RepoItem)
  | [] => .ok []
  | a :: rest =>
    match hrefOf a with
    | none => .error .keyError
    | some h =>
      match parseRepoLinks rest with
      | .error e => .error e
      | .ok rs =>
        .ok ({ url := urljoin parserBase h,
               owner := firstSegment (stripSlashes h),
               language_stats := [] } :: rs)

/-- `RepositoryParser._parse_results`. -/
def parseRepoResults (html : Html) : Except Err (List RepoItem) :=
  parseRepoLinks (selectTitleAnchors html)

/-! ## The enrichment unit (`RepositoryParser._fetch_repo_language`) -/

/-- The `for span in span_languages` loop of `_fetch_repo_language`,
mutating `item` in place: for each span, `span['aria-label']` (a missing
attribute raises `KeyError`), then `rsplit(' ', 1)` unpacked into two
variables (no space raises `ValueError`), then
`item['extra']['language_stats'][language] = f'{percentage}%'`.
Returns the item state when the loop stops together with the error that
stopped it, if any. -/
def processSpansSt (item : RepoItem) : List Node → RepoItem × Option Err
  | [] => (item, none)
  | sp :: rest =>
    match ariaLabel sp with
    | none => (item, some .keyError)
    | some lbl =>
      match rsplitSpaceLast lbl with
      | none => (item, some .valueError)
      | some (language, percentage) =>
        processSpansSt
          { item with
            language_stats := dictInsert item.language_stats language (percentage ++ "%") }
          rest

/-- The request `_fetch_repo_language` issues for one result: the item's
(already absolute) url joined against the base, the session proxy, the
browser headers, and no query params. -/
def repoPageRequest (proxy : List (String × String)) (item : RepoItem) : HttpRequest :=
  { url := urljoin parserBase item.url, proxy := proxy,
    headers := userAgentHeaders, params := [] }

/-- The body of `_fetch_repo_language` after the request: non-200 status
raises; `find('h2', string='Languages')` returning `None`, or
`find_parent('div')` returning `None`, raises `AttributeError` when the
next attribute access happens; otherwise the spans of the parent `div`
are folded into the item's `language_stats`. -/
def fetchRepoLanguageBody (tr : Transport) (req : HttpRequest) (item : RepoItem) :
    RepoItem × Option Err :=
  match tr req with
  | .error e => (item, some e)
  | .ok resp =>
    if resp.status_code ≠ 200 then (item, some (.fetchFailed resp.status_code))
    else
      match findLanguagesH2L none resp.text with
      | none => (item, some .attributeError)
      | some none => (item, some .attributeError)
      | some (some parentDiv) => processSpansSt item (selectProgressSpans parentDiv)

/-- `RepositoryParser._fetch_repo_language`, instrumented: the request it
issues, the item state it leaves behind, and the exception it raises in
its worker thread, if any. -/
def fetchRepoLanguage (tr : Transport) (proxy : List (String × String)) (item : RepoItem) :
    HttpRequest × RepoItem × Option Err :=
  let req := repoPageRequest proxy item
  (req, fetchRepoLanguageBody tr req item)

/-- Modelled from the spec: `MAX_WORKERS`, the bounded worker-pool width of
the enrichment step ("up to `MAX_WORKERS` (default 10)"). The constant is
imported by `parsers.py` from `crawler.crawler` but its definition is not
among the given sources. Its value does not affect which requests are made
or what the results are. -/
def MAX_WORKERS : Nat := 10

/-! ## The three search entry points -/

/-- The primary request a search issues: `urljoin(base_url, 'search')`
with the session proxy, browser headers and the category query params. -/
def primaryRequest (base searchType : String) (keywords : List String)
    (proxy : List (String × String)) : HttpRequest :=
  { url := urljoin base "search", proxy := proxy,
    headers := userAgentHeaders, params := queryParams keywords searchType }

/-- `RepositoryParser.search`, instrumented with the list of requests it
issues. Steps: pick the session proxy (kept in `self.current_proxy`),
primary fetch, non-200 raises, parse results, then
`executor.map(self._fetch_repo_language, results)` runs one task per
result with the same proxy; the map iterator is never consumed, so each
task's exception is swallowed and the (possibly partially mutated)
results list is returned. -/
def repositorySearch (keywords proxies : List String) (pick : Nat) (tr : Transport) :
    List HttpRequest × Except Err (List RepoItem) :=
  match chooseProxy "https" proxies pick with
  | .error e => ([], .error e)
  | .ok currentProxy =>
    let req := primaryRequest parserBase "repositories" keywords currentProxy
    match tr req with
    | .error e => ([req], .error e)
    | .ok resp =>
      if resp.status_code ≠ 200 then ([req], .error (.fetchFailed resp.status_code))
      else
        match parseRepoResults resp.text with
        | .error e => ([req], .error e)
        | .ok results =>
          let runs := results.map (fetchRepoLanguage tr currentProxy)
          (req :: runs.map (·.1), .ok (runs.map (fun r => r.2.1)))

/-- `WikisIssuesBaseParser.search` (shared by `IssuesParser` with
`search_type = 'issues'` and `WikisParser` with `search_type = 'wikis'`),
instrumented with the list of requests it issues. -/
def wikisIssuesSearch (searchType : String) (keywords proxies : List String) (pick : Nat)
    (tr : Transport) : List HttpRequest × Except Err (List SimpleResult) :=
  match chooseProxy "https" proxies pick with
  | .error e => ([], .error e)
  | .ok currentProxy =>
    let req := primaryRequest parserBase searchType keywords currentProxy
    match tr req with
    | .error e => ([req], .error e)
    | .ok resp =>
      if resp.status_code ≠ 200 then ([req], .error (.fetchFailed resp.status_code))
      else ([req], parseResultsSimple parserBase resp.text)

/-! ## `GitHubCrawler` (`crawler.py`) -/

/-- The state of a constructed `GitHubCrawler`. -/
structure GitHubCrawler where
  keywords : List String
  proxies : List String
  search_type : String
deriving Repr, DecidableEq

/-- Python `str.lower()`, character-wise. -/
def pyLower (s : String) : String :=
  String.mk (s.toList.map Char.toLower)

/-- The valid category tokens of `GitHubCrawler.__init__`. -/
def knownSearchTypes : List String := ["repositories", "wikis", "issues"]

/-- `GitHubCrawler.__init__`: lowercase the token, fail with
`Unknown search_type: <token>` (naming the lowercased token) when it is
not one of the three known variants. -/
def mkGitHubCrawler (keywords proxies : List String) (search_type : String) :
    Except Err GitHubCrawler :=
  let st := pyLower search_type
  if st == "repositories" || st == "wikis" || st == "issues" then
    .ok { keywords := keywords, proxies := proxies, search_type := st }
  else .error (.unknownSearchType st)

/-- `GitHubCrawler.search`, instrumented: proxy pick (the `proxies=`
argument is evaluated before the network call), primary fetch against
`urljoin(base_url, 'search')`, non-200 raises, then `parse_results`. -/
def githubSearch (c : GitHubCrawler) (pick : Nat) (tr : Transport) :
    List HttpRequest × Except Err (List SimpleResult) :=
  match chooseProxy "http" c.proxies pick with
  | .error e => ([], .error e)
  | .ok proxy =>
    let req := primaryRequest crawlerBase c.search_type c.keywords proxy
    match tr req with
    | .error e => ([req], .error e)
    | .ok resp =>
      if resp.status_code ≠ 200 then ([req], .error (.fetchFailed resp.status_code))
      else ([req], parseResultsSimple crawlerBase resp.text)

/-! ## A model of enrichment-completion order -/

/-- Run the per-item enrichment in an arbitrary completion order: each
work item `i` in the schedule reads slot `i` of the state and writes the
enriched value back into slot `i`, touching no other slot. -/
def execSchedule (f : RepoItem → RepoItem) (items : List RepoItem) (sched : List Nat) :
    List RepoItem :=
  sched.foldl (fun st i => st.set i (f (st.getD i { url := "", owner := "", language_stats := [] }))) items

/-- The state a single enrichment task leaves in its slot (its exception,
if any, is swallowed by the unconsumed `executor.map` iterator). -/
def enrichOne (tr : Transport) (proxy : List (String × String)) (item : RepoItem) : RepoItem :=
  (fetchRepoLanguage tr proxy item).2.1

/-! ## Helper lemmas -/

/-- A character list without a space has no last-space split. -/
theorem rsplitSp_eq_none_of_no_space (cs : List Char) (h : ' ' ∉ cs) :
    rsplitSp cs = none := by
  induction cs with
  | nil => rfl
  | cons c cs ih =>
    have hc : c ≠ ' ' := fun he => h (he ▸ List.mem_cons_self c cs)
    have hcs : ' ' ∉ cs := fun hm => h (List.mem_cons_of_mem c hm)
    simp [rsplitSp, ih hcs, hc]

/-- The last-space split of `name ++ ' ' :: pct` with a space-free `pct`
separates exactly at that space, keeping `name` whole. -/
theorem rsplitSp_append_space (name pct : List Char) (h : ' ' ∉ pct) :
    rsplitSp (name ++ ' ' :: pct) = some (name, pct) := by
  induction name with
  | nil => simp [rsplitSp, rsplitSp_eq_none_of_no_space pct h]
  | cons c cs ih => simp [rsplitSp, ih]

/-- String version of `rsplitSp_append_space`. -/
theorem rsplitSpaceLast_append (name pct : String) (h : ' ' ∉ pct.toList) :
    rsplitSpaceLast (name ++ " " ++ pct) = some (name, pct) := by
  unfold rsplitSpaceLast
  have he : (name ++ " " ++ pct).toList = name.toList ++ ' ' :: pct.toList := by
    have h1 : (name ++ " " ++ pct).toList = (name.toList ++ [' ']) ++ pct.toList := rfl
    rw [h1, List.append_assoc]
    rfl
  rw [he, rsplitSp_append_space _ _ h]
  rfl

/-- `rsplitSp` succeeds exactly when the list holds a space. -/
theorem rsplitSp_isSome_iff (cs : List Char) :
    (rsplitSp cs).isSome = true ↔ ' ' ∈ cs := by
  induction cs with
  | nil => simp [rsplitSp]
  | cons c cs ih =>
    cases hr : rsplitSp cs with
    | some p =>
      obtain ⟨a, b⟩ := p
      have hmem : ' ' ∈ cs := ih.mp (by simp [hr])
      simp [rsplitSp, hr, hmem]
    | none =>
      have hns : ' ' ∉ cs := fun hm => by
        have h2 := ih.mpr hm
        rw [hr] at h2
        simp at h2
      by_cases hc : c = ' '
      · simp [rsplitSp, hr, hc]
      · simp [rsplitSp, hr, hc, hns, Ne.symm hc]

/-- The proxy address `random.choice` picks from a non-empty pool. -/
def pickedProxy (key : String) (proxies : List String) (pick : Nat) :
    List (String × String) :=
  match proxies with
  | [] => []
  | p :: ps => [(key, (p :: ps).getD (pick % (p :: ps).length) p)]

/-- On a non-empty pool, `_get_random_proxy` returns the picked proxy dict. -/
theorem chooseProxy_ok (key : String) (proxies : List String) (pick : Nat)
    (h : proxies ≠ []) :
    chooseProxy key proxies pick = .ok (pickedProxy key proxies pick) := by
  cases proxies with
  | nil => exact absurd rfl h
  | cons p ps => rfl

/-- When every anchor carries an `href`, the simple-result comprehension
maps each anchor, in order, to its joined url. -/
theorem parseSimpleLinks_eq_map (base : String) (anchors : List Node)
    (h : ∀ a ∈ anchors, (hrefOf a).isSome) :
    parseSimpleLinks base anchors =
      .ok (anchors.map (fun a => { url := urljoin base ((hrefOf a).getD "") })) := by
  induction anchors with
  | nil => rfl
  | cons a rest ih =>
    have ha : (hrefOf a).isSome := h a (List.mem_cons_self a rest)
    obtain ⟨v, hv⟩ := Option.isSome_iff_exists.mp ha
    have hrest := ih (fun x hx => h x (List.mem_cons_of_mem a hx))
    simp [parseSimpleLinks, hv, hrest]

/-- `processSpansSt` only touches `language_stats`: the returned item has
the url and owner of the input item. -/
theorem processSpansSt_preserves (spans : List Node) :
    ∀ item : RepoItem, ((processSpansSt item spans).1).url = item.url ∧
      ((processSpansSt item spans).1).owner = item.owner := by
  induction spans with
  | nil => intro item; exact ⟨rfl, rfl⟩
  | cons sp rest ih =>
    intro item
    cases hl : ariaLabel sp with
    | none => simp [processSpansSt, hl]
    | some lbl =>
      cases hs : rsplitSpaceLast lbl with
      | none => simp [processSpansSt, hl, hs]
      | some p =>
        obtain ⟨language, percentage⟩ := p
        simpa [processSpansSt, hl, hs] using
          ih { item with
                language_stats := dictInsert item.language_stats language (percentage ++ "%") }

/-- `fetchRepoLanguageBody` only touches `language_stats` of the item. -/
theorem fetchRepoLanguageBody_preserves (tr : Transport) (req : HttpRequest)
    (item : RepoItem) :
    ((fetchRepoLanguageBody tr req item).1).url = item.url ∧
      ((fetchRepoLanguageBody tr req item).1).owner = item.owner := by
  unfold fetchRepoLanguageBody
  split
  · exact ⟨rfl, rfl⟩
  · split
    · exact ⟨rfl, rfl⟩
    · split
      · exact ⟨rfl, rfl⟩
      · exact ⟨rfl, rfl⟩
      · exact processSpansSt_preserves _ item

/-- One enrichment task leaves its slot with the url and owner it found
there: only `language_stats` is written. -/
theorem enrichOne_preserves (tr : Transport) (proxy : List (String × String))
    (item : RepoItem) :
    (enrichOne tr proxy item).url = item.url ∧
      (enrichOne tr proxy item).owner = item.owner :=
  fetchRepoLanguageBody_preserves tr (repoPageRequest proxy item) item

/-- Invariant-carrying induction for `execSchedule`: while the schedule
still holds an index, that slot still carries its original value; slots
whose index has already completed carry the enriched value. -/
theorem execSchedule_go (f : RepoItem → RepoItem) (sched : List Nat) :
    ∀ (st orig : List RepoItem), sched.Nodup → st.length = orig.length →
      (∀ j ∈ sched, j < orig.length) →
      (∀ j, j < orig.length →
        st[j]? = if j ∈ sched then orig[j]? else (orig.map f)[j]?) →
      execSchedule f st sched = orig.map f := by
  induction sched with
  | nil =>
    intro st orig _ hlen _ hst
    have hred : execSchedule f st [] = st := rfl
    rw [hred]
    apply List.ext_getElem?
    intro n
    by_cases hn : n < orig.length
    · simpa using hst n hn
    · rw [List.getElem?_eq_none_iff.mpr (by rw [hlen]; exact Nat.le_of_not_lt hn),
        List.getElem?_eq_none_iff.mpr (by simpa using Nat.le_of_not_lt hn)]
  | cons i rest ih =>
    intro st orig hnd hlen hmem hst
    have hi : i < orig.length := hmem i (List.mem_cons_self i rest)
    have hiRest : i ∉ rest := (List.nodup_cons.mp hnd).1
    have hndRest : rest.Nodup := (List.nodup_cons.mp hnd).2
    have hstI : st[i]? = orig[i]? := by
      have := hst i hi
      simpa [List.mem_cons] using this
    have hvi : orig[i]? = some orig[i] :=
      (List.getElem?_eq_some_getElem_iff orig i hi).mpr trivial
    have hget : st[i]?.getD { url := "", owner := "", language_stats := [] } = orig[i] := by
      rw [hstI, hvi]
      rfl
    have hstep : execSchedule f st (i :: rest) =
        execSchedule f (st.set i (f orig[i])) rest := by
      simp [execSchedule, List.getD_eq_getElem?_getD, hget]
    rw [hstep]
    apply ih (st.set i (f orig[i])) orig hndRest
    · rw [List.length_set]
      exact hlen
    · exact fun j hj => hmem j (List.mem_cons_of_mem i hj)
    · intro j hj
      by_cases hij : i = j
      · subst hij
        have hset : (st.set i (f orig[i]))[i]? = some (f orig[i]) :=
          List.getElem?_set_self (by rw [hlen]; exact hi)
        rw [hset]
        simp [hiRest, List.getElem?_map, hvi]
      · have hji : j ≠ i := fun h => hij h.symm
        have hset : (st.set i (f orig[i]))[j]? = st[j]? :=
          List.getElem?_set_ne hij
        rw [hset, hst j hj]
        simp [List.mem_cons, hji]

/-- Running the enrichment tasks in any completion order — any permutation
of the slot indices — produces the same final list as enriching each slot
independently. -/
theorem execSchedule_perm (f : RepoItem → RepoItem) (items : List RepoItem)
    (sched : List Nat) (h : sched.Perm (List.range items.length)) :
    execSchedule f items sched = items.map f := by
  apply execSchedule_go f sched items items
  · exact h.nodup_iff.mpr (List.nodup_range _)
  · rfl
  · exact fun j hj => List.mem_range.mp (h.mem_iff.mp hj)
  · intro j hj
    have : j ∈ sched := h.mem_iff.mpr (List.mem_range.mpr hj)
    simp [this]

/-! ## Concrete fixtures -/

/-- A search-results page with two result links, as in the repository's
test markup shape. -/
def sampleSearchHtml : Html :=
  .ofList [Node.elem "html" [] (.ofList [Node.elem "body" [] (.ofList
    [Node.elem "div" [("class", "search-title")]
       (.ofList [Node.elem "a" [("href", "/owner1/repo1")] .nil]),
     Node.elem "div" [("class", "search-title")]
       (.ofList [Node.elem "a" [("href", "/owner2/repo2")] .nil])])])]

/-- A search-results page with a single result link. -/
def oneLinkHtml : Html :=
  .ofList [Node.elem "div" [("class", "search-title")]
     (.ofList [Node.elem "a" [("href", "/o/r")] .nil])]

/-- A repository page with no `Languages` heading at all. -/
def pageNoHeading : Html :=
  .ofList [Node.elem "div" [] (.ofList [Node.text "nothing here"])]

/-- A repository page whose `Languages` heading sits in a `div` that
holds no language spans. -/
def pageHeadingNoSpans : Html :=
  .ofList [Node.elem "div" [] (.ofList [Node.elem "h2" [] (.ofList [Node.text "Languages"])])]

/-- A transport that answers every request with status 429. -/
def trStatus429 : Transport := fun _ => .ok { status_code := 429, text := .nil }

/-- A transport where the primary search fetch succeeds with one result
link and every other (enrichment) fetch answers status 500. -/
def trEnrichFail : Transport := fun req =>
  if req.url == "https://github.com/search" then .ok { status_code := 200, text := oneLinkHtml }
  else .ok { status_code := 500, text := .nil }

/-- A transport serving a heading-less repository page at `/r1` and a
heading-but-no-spans page everywhere else. -/
def trTwoPages : Transport := fun req =>
  if req.url == "https://github.com/r1" then .ok { status_code := 200, text := pageNoHeading }
  else .ok { status_code := 200, text := pageHeadingNoSpans }

/-! ## The claims -/

/-- C4: a category token whose lowercased form is not one of
`repositories`, `wikis`, `issues` makes construction fail immediately
with an error naming the exact lowercased token; any case variation of a
known token is accepted (and stored lowercased) — matching is
case-insensitive only, with no fallback. -/
theorem unknown_category_rejected_known_accepted
    (k p : List String) (s : String) :
    (mkGitHubCrawler k p s = .error (.unknownSearchType (pyLower s))
        ↔ pyLower s ∉ knownSearchTypes)
  ∧ (mkGitHubCrawler k p s
        = .ok { keywords := k, proxies := p, search_type := pyLower s }
        ↔ pyLower s ∈ knownSearchTypes) := by
  have hc : (pyLower s == "repositories" || pyLower s == "wikis"
      || pyLower s == "issues") = true ↔ pyLower s ∈ knownSearchTypes := by
    simp [knownSearchTypes, or_assoc]
  by_cases h : (pyLower s == "repositories" || pyLower s == "wikis"
      || pyLower s == "issues") = true
  · have hm : pyLower s ∈ knownSearchTypes := hc.mp h
    have hmk : mkGitHubCrawler k p s
        = .ok { keywords := k, proxies := p, search_type := pyLower s } := by
      simp [mkGitHubCrawler, h]
    constructor
    · constructor
      · intro he
        rw [hmk] at he
        exact absurd he (by simp)
      · intro hn
        exact absurd hm hn
    · exact ⟨fun _ => hm, fun _ => hmk⟩
  · have hm : pyLower s ∉ knownSearchTypes := fun hmem => h (hc.mpr hmem)
    have hmk : mkGitHubCrawler k p s = .error (.unknownSearchType (pyLower s)) := by
      simp [mkGitHubCrawler, h]
    constructor
    · exact ⟨fun _ => hm, fun _ => hmk⟩
    · constructor
      · intro he
        rw [hmk] at he
        exact absurd he (by simp)
      · intro hmem
        exact absurd hmem hm

/-- C9: with an empty proxy pool every search variant fails with the
empty-pool error and its request log is empty — the failure is raised
before any network call is made. -/
theorem empty_proxy_pool_fails_before_network
    (k : List String) (st : String) (pick : Nat) (tr : Transport) :
    repositorySearch k [] pick tr = ([], .error .emptyProxyPool)
  ∧ wikisIssuesSearch st k [] pick tr = ([], .error .emptyProxyPool)
  ∧ githubSearch { keywords := k, proxies := [], search_type := st } pick tr
      = ([], .error .emptyProxyPool) :=
  ⟨rfl, rfl, rfl⟩

/-- C3: when the primary search fetch answers any non-200 status, each
search variant raises an error carrying that exact status code and no
results are returned (the request log stops at the primary request). -/
theorem primary_non_success_aborts (k p : List String) (st : String) (pick : Nat)
    (tr : Transport) (status : Nat) (body : Html)
    (hp : p ≠ []) (hs : status ≠ 200)
    (h1 : tr (primaryRequest parserBase "repositories" k (pickedProxy "https" p pick))
        = .ok { status_code := status, text := body })
    (h2 : tr (primaryRequest parserBase st k (pickedProxy "https" p pick))
        = .ok { status_code := status, text := body })
    (h3 : tr (primaryRequest crawlerBase st k (pickedProxy "http" p pick))
        = .ok { status_code := status, text := body }) :
    repositorySearch k p pick tr
        = ([primaryRequest parserBase "repositories" k (pickedProxy "https" p pick)],
           .error (.fetchFailed status))
  ∧ wikisIssuesSearch st k p pick tr
        = ([primaryRequest parserBase st k (pickedProxy "https" p pick)],
           .error (.fetchFailed status))
  ∧ githubSearch { keywords := k, proxies := p, search_type := st } pick tr
        = ([primaryRequest crawlerBase st k (pickedProxy "http" p pick)],
           .error (.fetchFailed status)) := by
  refine ⟨?_, ?_, ?_⟩
  · simp [repositorySearch, chooseProxy_ok "https" p pick hp, h1, hs]
  · simp [wikisIssuesSearch, chooseProxy_ok "https" p pick hp, h2, hs]
  · simp [githubSearch, chooseProxy_ok "http" p pick hp, h3, hs]

/-- Witness for C3 at a concrete input: one proxy, a transport answering
429 everywhere. -/
theorem primary_non_success_aborts_witness :
    repositorySearch ["k"] ["p"] 0 trStatus429
        = ([primaryRequest parserBase "repositories" ["k"] (pickedProxy "https" ["p"] 0)],
           .error (.fetchFailed 429))
  ∧ wikisIssuesSearch "issues" ["k"] ["p"] 0 trStatus429
        = ([primaryRequest parserBase "issues" ["k"] (pickedProxy "https" ["p"] 0)],
           .error (.fetchFailed 429))
  ∧ githubSearch { keywords := ["k"], proxies := ["p"], search_type := "issues" } 0 trStatus429
        = ([primaryRequest crawlerBase "issues" ["k"] (pickedProxy "http" ["p"] 0)],
           .error (.fetchFailed 429)) :=
  primary_non_success_aborts ["k"] ["p"] "issues" 0 trStatus429 429 .nil
    (by simp) (by decide) rfl rfl rfl

/-- C5: link extraction selects exactly the anchors matching
`div.search-title > a` (the `selectTitleAnchors` traversal), returns one
record per matched anchor in document order, each with the anchor's href
resolved against the base URL; zero matched anchors give the empty
sequence, not an error. -/
theorem link_extraction_one_record_per_anchor (base : String) (html : Html)
    (h : ∀ a ∈ selectTitleAnchors html, (hrefOf a).isSome) :
    parseResultsSimple base html
        = .ok ((selectTitleAnchors html).map
            (fun a => { url := urljoin base ((hrefOf a).getD "") }))
  ∧ (selectTitleAnchors html = [] → parseResultsSimple base html = .ok []) := by
  have hmap := parseSimpleLinks_eq_map base (selectTitleAnchors html) h
  constructor
  · exact hmap
  · intro hz
    unfold parseResultsSimple
    rw [hz]
    rfl

/-- Witness for C5 on the two-link sample page. -/
theorem link_extraction_one_record_per_anchor_witness :
    parseResultsSimple parserBase sampleSearchHtml
        = .ok ((selectTitleAnchors sampleSearchHtml).map
            (fun a => { url := urljoin parserBase ((hrefOf a).getD "") }))
  ∧ (selectTitleAnchors sampleSearchHtml = []
        → parseResultsSimple parserBase sampleSearchHtml = .ok []) :=
  link_extraction_one_record_per_anchor parserBase sampleSearchHtml (by decide)

/-- C6: a language span whose accessibility label is
`<LanguageName> <percentage>` (percentage space-free, name possibly
containing spaces) is split at the last space — the name is never split —
and `percentage + "%"` is stored keyed by the full name. -/
theorem language_label_split_at_last_space (url owner : String)
    (stats : List (String × String)) (name pct : String) (rest : List Node)
    (h : ' ' ∉ pct.toList) :
    processSpansSt { url := url, owner := owner, language_stats := stats }
        (Node.elem "span" [("aria-label", name ++ " " ++ pct)] .nil :: rest)
      = processSpansSt
          { url := url, owner := owner,
            language_stats := dictInsert stats name (pct ++ "%") } rest := by
  have hl : ariaLabel (Node.elem "span" [("aria-label", name ++ " " ++ pct)] .nil)
      = some (name ++ " " ++ pct) := rfl
  have hs := rsplitSpaceLast_append name pct h
  simp [processSpansSt, hl, hs]

/-- Witness for C6: the label `Jupyter Notebook 97.3` keeps the space
inside the language name and stores `97.3%` under `Jupyter Notebook`. -/
theorem language_label_split_at_last_space_witness :
    processSpansSt { url := "u", owner := "o", language_stats := [] }
        [Node.elem "span" [("aria-label", "Jupyter Notebook" ++ " " ++ "97.3")] .nil]
      = processSpansSt
          { url := "u", owner := "o",
            language_stats := dictInsert [] "Jupyter Notebook" ("97.3" ++ "%") } [] :=
  language_label_split_at_last_space "u" "o" [] "Jupyter Notebook" "97.3" [] (by decide)

/-- A span is processable when it carries an `aria-label` holding at
least one space. -/
def goodSpan (sp : Node) : Bool :=
  match ariaLabel sp with
  | none => false
  | some lbl => lbl.toList.contains ' '

/-- C10: the per-span loop finishes without an exception exactly when
every collected span carries an `aria-label` with at least one space;
when it stops early the exception is the lookup error (`KeyError`, label
attribute absent) or the unpacking error (`ValueError`, label without a
space), and that span's stat is not recorded. -/
theorem spans_need_spaced_labels (item : RepoItem) (spans : List Node) :
    ((processSpansSt item spans).2 = none ↔ ∀ sp ∈ spans, goodSpan sp)
  ∧ (∀ e, (processSpansSt item spans).2 = some e
        → e = .keyError ∨ e = .valueError) := by
  induction spans generalizing item with
  | nil => simp [processSpansSt]
  | cons sp rest ih =>
    cases hl : ariaLabel sp with
    | none =>
      constructor
      · simp [processSpansSt, hl, goodSpan]
      · intro e he
        simp [processSpansSt, hl] at he
        exact Or.inl he.symm
    | some lbl =>
      cases hs : rsplitSpaceLast lbl with
      | none =>
        have hns : ' ' ∉ lbl.toList := by
          intro hc
          have h1 : (rsplitSp lbl.toList).isSome = true :=
            (rsplitSp_isSome_iff lbl.toList).mpr hc
          have h2 : rsplitSp lbl.toList = none := by
            simpa [rsplitSpaceLast] using hs
          rw [h2] at h1
          simp at h1
        constructor
        · constructor
          · intro h
            exfalso
            simp [processSpansSt, hl, hs] at h
          · intro hall
            exfalso
            have hg := hall sp (List.mem_cons_self sp rest)
            simp [goodSpan, hl] at hg
            exact hns hg
        · intro e he
          simp [processSpansSt, hl, hs] at he
          exact Or.inr he.symm
      | some p =>
        obtain ⟨language, percentage⟩ := p
        have hcs : lbl.toList.contains ' ' := by
          have : (rsplitSp lbl.toList).isSome = true := by
            simp [rsplitSpaceLast] at hs
            obtain ⟨a, b, hab, -⟩ := hs
            simp [hab]
          simpa using (rsplitSp_isSome_iff lbl.toList).mp this
        have hred : processSpansSt item (sp :: rest)
            = processSpansSt
                { item with language_stats :=
                    dictInsert item.language_stats language (percentage ++ "%") } rest := by
          simp [processSpansSt, hl, hs]
        rw [hred]
        constructor
        · rw [(ih _).1]
          constructor
          · intro hall
            intro x hx
            rcases List.mem_cons.mp hx with hx | hx
            · subst hx
              simp only [goodSpan, hl]
              simpa using hcs
            · exact hall x hx
          · intro hall x hx
            exact hall x (List.mem_cons_of_mem sp hx)
        · exact (ih _).2

/-- Witness for C10: a space-free label stops the loop with the
unpacking error. -/
theorem spans_need_spaced_labels_witness :
    (processSpansSt { url := "u", owner := "o", language_stats := [] }
        [Node.elem "span" [("aria-label", "nospace")] .nil]).2 = some .valueError
  ∧ (Err.valueError = .keyError ∨ Err.valueError = .valueError) :=
  ⟨by decide,
   (spans_need_spaced_labels { url := "u", owner := "o", language_stats := [] }
       [Node.elem "span" [("aria-label", "nospace")] .nil]).2
     Err.valueError (by decide)⟩

/-- Counterexample to C2 as stated: on a repository page with no
`Languages` heading the extraction step raises (`find` returns `None`
and `find_parent` is called on it) instead of returning an empty mapping
without error. -/
theorem missing_heading_raises_counterexample :
    (fetchRepoLanguage trTwoPages [("https", "p")]
        { url := "https://github.com/r1", owner := "o", language_stats := [] }).2.2
      = some .attributeError := rfl

/-- C2 amended: on a page with no `Languages` heading the per-result
extraction raises the attribute error, leaving the item (and so its
`language_stats`) untouched — the enrichment step later swallows this
exception, so the search still succeeds with the mapping empty; on a
page whose heading's parent `div` holds no language spans the extraction
finishes without error and the mapping also stays as it was. -/
theorem missing_heading_vs_no_spans (tr : Transport)
    (proxy : List (String × String)) (item : RepoItem) (body : Html)
    (htr : tr (repoPageRequest proxy item) = .ok { status_code := 200, text := body }) :
    (findLanguagesH2L none body = none →
      fetchRepoLanguage tr proxy item
        = (repoPageRequest proxy item, item, some .attributeError))
  ∧ (∀ d, findLanguagesH2L none body = some (some d) → selectProgressSpans d = [] →
      fetchRepoLanguage tr proxy item
        = (repoPageRequest proxy item, item, none)) := by
  constructor
  · intro hh
    have hb : fetchRepoLanguageBody tr (repoPageRequest proxy item) item
        = (item, some .attributeError) := by
      unfold fetchRepoLanguageBody
      rw [htr]
      simp [hh]
    simp [fetchRepoLanguage, hb]
  · intro d hh hsp
    have hb : fetchRepoLanguageBody tr (repoPageRequest proxy item) item
        = (item, none) := by
      unfold fetchRepoLanguageBody
      rw [htr]
      simp [hh, hsp, processSpansSt]
    simp [fetchRepoLanguage, hb]

/-- Witness for C2 amended, on the two concrete pages served by
`trTwoPages`. -/
theorem missing_heading_vs_no_spans_witness :
    fetchRepoLanguage trTwoPages [("https", "p")]
        { url := "https://github.com/r1", owner := "o1", language_stats := [] }
      = (repoPageRequest [("https", "p")]
           { url := "https://github.com/r1", owner := "o1", language_stats := [] },
         { url := "https://github.com/r1", owner := "o1", language_stats := [] },
         some .attributeError)
  ∧ fetchRepoLanguage trTwoPages [("https", "p")]
        { url := "https://github.com/r2", owner := "o2", language_stats := [] }
      = (repoPageRequest [("https", "p")]
           { url := "https://github.com/r2", owner := "o2", language_stats := [] },
         { url := "https://github.com/r2", owner := "o2", language_stats := [] },
         none) :=
  ⟨(missing_heading_vs_no_spans trTwoPages [("https", "p")]
      { url := "https://github.com/r1", owner := "o1", language_stats := [] }
      pageNoHeading rfl).1 rfl,
   (missing_heading_vs_no_spans trTwoPages [("https", "p")]
      { url := "https://github.com/r2", owner := "o2", language_stats := [] }
      pageHeadingNoSpans rfl).2
     (Node.elem "div" [] (.ofList [Node.elem "h2" [] (.ofList [Node.text "Languages"])]))
     rfl rfl⟩

/-- Counterexample to C1 as stated: with one parsed repository result
whose enrichment fetch answers status 500, `search()` still returns the
result sequence — the task's exception sits in an unconsumed future, so
nothing propagates and the (unenriched) results are handed back. -/
theorem enrichment_failure_swallowed_counterexample :
    (repositorySearch ["k"] ["p"] 0 trEnrichFail).2
        = .ok [{ url := "https://github.com/o/r", owner := "o", language_stats := [] }]
  ∧ trEnrichFail (repoPageRequest [("https", "p")]
        { url := "https://github.com/o/r", owner := "o", language_stats := [] })
        = .ok { status_code := 500, text := .nil } :=
  ⟨rfl, rfl⟩

/-- C1 amended: an enrichment fetch failing (non-success status or
transport error) is not fatal — `executor.map`'s iterator is never
consumed, so the worker's exception is swallowed and `search()` returns
the full result sequence, one record per parsed result, with failed
items simply left unenriched. -/
theorem enrichment_failure_swallowed (k p : List String) (pick : Nat)
    (tr : Transport) (body : Html) (items : List RepoItem)
    (hp : p ≠ [])
    (htr : tr (primaryRequest parserBase "repositories" k (pickedProxy "https" p pick))
        = .ok { status_code := 200, text := body })
    (hparse : parseRepoResults body = .ok items)
    (_hfail : ∃ it ∈ items,
        ((fetchRepoLanguage tr (pickedProxy "https" p pick) it).2.2).isSome) :
    (repositorySearch k p pick tr).2
        = .ok (items.map (enrichOne tr (pickedProxy "https" p pick)))
  ∧ (items.map (enrichOne tr (pickedProxy "https" p pick))).length
        = items.length := by
  constructor
  · have hred : (repositorySearch k p pick tr).2
        = .ok ((items.map (fetchRepoLanguage tr (pickedProxy "https" p pick))).map
            (fun r => r.2.1)) := by
      simp [repositorySearch, chooseProxy_ok "https" p pick hp, htr, hparse]
    rw [hred, List.map_map]
    rfl
  · exact List.length_map items _

/-- Witness for C1 amended: the concrete one-result search whose only
enrichment fetch answers 500 still returns a one-element `ok` result. -/
theorem enrichment_failure_swallowed_witness :
    (repositorySearch ["k"] ["p"] 0 trEnrichFail).2
        = .ok ([{ url := "https://github.com/o/r", owner := "o", language_stats := [] }].map
            (enrichOne trEnrichFail (pickedProxy "https" ["p"] 0)))
  ∧ ([{ url := "https://github.com/o/r", owner := "o", language_stats := [] }].map
        (enrichOne trEnrichFail (pickedProxy "https" ["p"] 0))).length = 1 :=
  enrichment_failure_swallowed ["k"] ["p"] 0 trEnrichFail oneLinkHtml
    [{ url := "https://github.com/o/r", owner := "o", language_stats := [] }]
    (by simp) rfl rfl
    ⟨{ url := "https://github.com/o/r", owner := "o", language_stats := [] },
     List.mem_cons_self _ _, rfl⟩

/-- C7: enrichment mutates each result record in place, touching only
`language_stats`: whatever order the work items complete in (any
permutation of the slot indices), the search returns a sequence of the
same length and order as link extraction produced, with every record's
`url` and `owner` unchanged. -/
theorem enrichment_preserves_order_and_frame (k p : List String) (pick : Nat)
    (tr : Transport) (body : Html) (items : List RepoItem) (sched : List Nat)
    (hp : p ≠ [])
    (htr : tr (primaryRequest parserBase "repositories" k (pickedProxy "https" p pick))
        = .ok { status_code := 200, text := body })
    (hparse : parseRepoResults body = .ok items)
    (hperm : sched.Perm (List.range items.length)) :
    (repositorySearch k p pick tr).2
        = .ok (execSchedule (enrichOne tr (pickedProxy "https" p pick)) items sched)
  ∧ (execSchedule (enrichOne tr (pickedProxy "https" p pick)) items sched).length
        = items.length
  ∧ ∀ i : Nat,
      ((execSchedule (enrichOne tr (pickedProxy "https" p pick)) items sched)[i]?).map
          (fun r => (r.url, r.owner))
        = (items[i]?).map (fun r => (r.url, r.owner)) := by
  have hexec := execSchedule_perm (enrichOne tr (pickedProxy "https" p pick)) items sched hperm
  refine ⟨?_, ?_, ?_⟩
  · rw [hexec]
    have hred : (repositorySearch k p pick tr).2
        = .ok ((items.map (fetchRepoLanguage tr (pickedProxy "https" p pick))).map
            (fun r => r.2.1)) := by
      simp [repositorySearch, chooseProxy_ok "https" p pick hp, htr, hparse]
    rw [hred, List.map_map]
    rfl
  · rw [hexec]
    exact List.length_map items _
  · intro i
    rw [hexec, List.getElem?_map]
    cases hi : items[i]? with
    | none => rfl
    | some it =>
      have hu := (enrichOne_preserves tr (pickedProxy "https" p pick) it).1
      have ho := (enrichOne_preserves tr (pickedProxy "https" p pick) it).2
      simp [hu, ho]

/-- Witness for C7 on the one-result search with a failing enrichment
fetch and the singleton schedule. -/
theorem enrichment_preserves_order_and_frame_witness :
    (repositorySearch ["k"] ["p"] 0 trEnrichFail).2
        = .ok (execSchedule (enrichOne trEnrichFail (pickedProxy "https" ["p"] 0))
            [{ url := "https://github.com/o/r", owner := "o", language_stats := [] }] [0])
  ∧ (execSchedule (enrichOne trEnrichFail (pickedProxy "https" ["p"] 0))
        [{ url := "https://github.com/o/r", owner := "o", language_stats := [] }] [0]).length
        = 1
  ∧ ∀ i : Nat,
      ((execSchedule (enrichOne trEnrichFail (pickedProxy "https" ["p"] 0))
          [{ url := "https://github.com/o/r", owner := "o", language_stats := [] }] [0])[i]?).map
          (fun r => (r.url, r.owner))
        = (([{ url := "https://github.com/o/r", owner := "o", language_stats := [] }]
            : List RepoItem)[i]?).map (fun r => (r.url, r.owner)) :=
  enrichment_preserves_order_and_frame ["k"] ["p"] 0 trEnrichFail oneLinkHtml
    [{ url := "https://github.com/o/r", owner := "o", language_stats := [] }] [0]
    (by simp) rfl rfl
    (by have h : List.range
          [({ url := "https://github.com/o/r", owner := "o", language_stats := [] }
            : RepoItem)].length = [0] := rfl
        rw [h])

/-- C8: one proxy identity is selected per search call and that same
identity is carried by the primary request and by every enrichment
request the call issues; it is never re-selected in between. -/
theorem one_proxy_identity_per_search (k p : List String) (pick : Nat)
    (tr : Transport) (hp : p ≠ []) :
    chooseProxy "https" p pick = .ok (pickedProxy "https" p pick)
  ∧ ∀ req ∈ (repositorySearch k p pick tr).1,
      req.proxy = pickedProxy "https" p pick := by
  have hcp := chooseProxy_ok "https" p pick hp
  refine ⟨hcp, ?_⟩
  intro req hreq
  cases htr : tr (primaryRequest parserBase "repositories" k (pickedProxy "https" p pick)) with
  | error e =>
    have hlog : (repositorySearch k p pick tr).1
        = [primaryRequest parserBase "repositories" k (pickedProxy "https" p pick)] := by
      simp [repositorySearch, hcp, htr]
    rw [hlog] at hreq
    rcases List.mem_singleton.mp hreq with h
    subst h
    rfl
  | ok resp =>
    by_cases hst : resp.status_code = 200
    · cases hpr : parseRepoResults resp.text with
      | error e =>
        have hlog : (repositorySearch k p pick tr).1
            = [primaryRequest parserBase "repositories" k (pickedProxy "https" p pick)] := by
          simp [repositorySearch, hcp, htr, hst, hpr]
        rw [hlog] at hreq
        rcases List.mem_singleton.mp hreq with h
        subst h
        rfl
      | ok results =>
        have hlog : (repositorySearch k p pick tr).1
            = primaryRequest parserBase "repositories" k (pickedProxy "https" p pick) ::
              (results.map (fetchRepoLanguage tr (pickedProxy "https" p pick))).map
                (fun r => r.1) := by
          simp [repositorySearch, hcp, htr, hst, hpr]
        rw [hlog] at hreq
        rcases List.mem_cons.mp hreq with h | h
        · subst h
          rfl
        · rw [List.map_map] at h
          obtain ⟨it, hit, hre⟩ := List.mem_map.mp h
          rw [← hre]
          rfl
    · have hlog : (repositorySearch k p pick tr).1
          = [primaryRequest parserBase "repositories" k (pickedProxy "https" p pick)] := by
        simp [repositorySearch, hcp, htr, hst]
      rw [hlog] at hreq
      rcases List.mem_singleton.mp hreq with h
      subst h
      rfl

/-- Witness for C8 on the concrete one-result search (primary plus one
enrichment request, both through proxy `p`). -/
theorem one_proxy_identity_per_search_witness :
    chooseProxy "https" ["p"] 0 = .ok (pickedProxy "https" ["p"] 0)
  ∧ ∀ req ∈ (repositorySearch ["k"] ["p"] 0 trEnrichFail).1,
      req.proxy = pickedProxy "https" ["p"] 0 :=
  one_proxy_identity_per_search ["k"] ["p"] 0 trEnrichFail (by simp)
